import Mathlib

/-!
Shallow embedding of the LOTRO patch-server traffic proxy
(`tools/patch_proxy.py`) and the envelope-header analyzer
(`tools/protocol_analysis.py`).

Bytes are modelled as `Nat` values (each `< 256` where it matters); byte
strings as `List Nat`.  Python code that can raise is modelled with
`PyResult`; `None` results with `Option`.
-/

namespace LotroProxy

/-- `struct.unpack("<I", s)[0]`: little-endian unsigned 32-bit integer.
`struct.unpack` raises `struct.error` unless the buffer is exactly 4 bytes,
so the embedding returns `none` in that case. -/
def unpackLEu32 : List Nat → Option Nat
  | [b0, b1, b2, b3] => some (b0 + 0x100 * b1 + 0x10000 * b2 + 0x1000000 * b3)
  | _ => none

/-- `s.decode('ascii', errors='ignore')`: keeps the bytes below 0x80 as the
corresponding characters and silently drops every other byte; never raises. -/
def asciiDecodeIgnore (bs : List Nat) : String :=
  String.mk ((bs.filter fun b => b < 0x80).map Char.ofNat)

/-- Result of running a piece of Python code: either a value, or an
uncaught exception carrying a message. -/
inductive PyResult (α : Type) where
  | ok (val : α)
  | exn (msg : String)
deriving DecidableEq

/-- The four header fields produced by `analyze_header` in
`tools/protocol_analysis.py`. -/
structure AnalyzedHeader where
  msg_type : Nat
  flags : Nat
  cipher : String
  padding : Nat
deriving DecidableEq

/-- `analyze_header(data)` from `tools/protocol_analysis.py`:

* `len(data) < 13` prints "Header too short" and returns `None`
  (modelled `Except.ok none`);
* otherwise `data[0]` (raises `IndexError` on an empty buffer),
  `struct.unpack("<I", data[1:5])`, `data[5:9].decode('ascii', 'ignore')`,
  `struct.unpack("<I", data[9:13])`.
An uncaught Python exception is modelled as `PyResult.exn`. -/
def analyze_header (data : List Nat) : PyResult (Option AnalyzedHeader) :=
  if data.length < 13 then .ok none
  else
    match data with
    | [] => .exn "IndexError"
    | t :: _ =>
      match unpackLEu32 ((data.drop 1).take 4), unpackLEu32 ((data.drop 9).take 4) with
      | some flags, some padding =>
          .ok (some ⟨t, flags, asciiDecodeIgnore ((data.drop 5).take 4), padding⟩)
      | _, _ => .exn "struct.error"

/-- `REQUEST_HEADER` from `tools/protocol_analysis.py`. -/
def REQUEST_HEADER : List Nat :=
  [0x6d, 0x01, 0x00, 0x80, 0x04, 0x33, 0x64, 0x65, 0x73, 0x80, 0x00, 0x00, 0x00]

/-- `REQUEST_HEADER_2` from `tools/protocol_analysis.py`. -/
def REQUEST_HEADER_2 : List Nat :=
  [0xd5, 0x00, 0x00, 0x80, 0x04, 0x33, 0x64, 0x65, 0x73, 0x80, 0x00, 0x00, 0x00]

/-! ### TrafficLogger (`tools/patch_proxy.py`) -/

/-- `n.to_bytes(4, 'little')` (defined for `n < 2^32`; `log_packet` applies it
to `len(data)`, and `recv(8192)` bounds every chunk well below `2^32`). -/
def toBytes4LE (n : Nat) : List Nat :=
  [n % 0x100, n / 0x100 % 0x100, n / 0x10000 % 0x100, n / 0x1000000 % 0x100]

/-- `s.encode()`: UTF-8 encoding, which for the pure-ASCII direction tags used
by the proxy is exactly the list of character codes. -/
def strEncode (s : String) : List Nat := s.data.map Char.toNat

/-- The direction tag passed to `forward_data` for the client→server leg. -/
def CLIENT_TO_SERVER : String := "CLIENT->SERVER"

/-- The direction tag passed to `forward_data` for the server→client leg. -/
def SERVER_TO_CLIENT : String := "SERVER->CLIENT"

/-- The 4-byte marker `b'\x00\x00\x00\x00'` used twice in each binary record. -/
def MARKER : List Nat := [0, 0, 0, 0]

/-- The bytes appended to the binary sink for one call of
`TrafficLogger.log_packet(direction, data)`:
`b'\x00\x00\x00\x00' + direction.encode() + b'\x00\x00\x00\x00'`
followed by `len(data).to_bytes(4, 'little')` and `data`, written by a single
`self.binary.write(marker + length + data)` call. -/
def binRecord (direction : String) (data : List Nat) : List Nat :=
  MARKER ++ strEncode direction ++ MARKER ++ toBytes4LE data.length ++ data

/-- The write calls issued to the binary sink for one record: exactly one. -/
def binWrites (direction : String) (data : List Nat) : List (List Nat) :=
  [binRecord direction data]

/-- Binary-sink contents after a sequence of recorded frames
(direction tag, raw bytes), in recording order. -/
def binSink (frames : List (String × List Nat)) : List Nat :=
  (frames.map fun f => binRecord f.1 f.2).flatten

/-- Modelled from the spec: the replay procedure for the binary sink — skip
the fixed-size record header (4-byte marker, 14-byte direction tag, 4-byte
marker), read the 4-byte little-endian length, read that many bytes, repeat
until the input is exhausted.  `fuel` bounds the number of records read; any
value at least the record count gives the same result.  Returns the recovered
(direction-tag bytes, frame bytes) pairs, or `none` on a malformed sink. -/
def readRecords (fuel : Nat) (bs : List Nat) : Option (List (List Nat × List Nat)) :=
  match fuel with
  | 0 => if bs = [] then some [] else none
  | fuel + 1 =>
    if bs = [] then some []
    else if bs.length < 26 then none
    else
      match unpackLEu32 ((bs.drop 22).take 4) with
      | none => none
      | some n =>
        if (bs.drop 26).length < n then none
        else
          (readRecords fuel (bs.drop (26 + n))).map
            fun rs => ((bs.drop 4).take 14, (bs.drop 26).take n) :: rs

/-- A lowercase hexadecimal digit, as Python's `bytes.hex` produces. -/
def hexDigit (n : Nat) : Char :=
  if n < 10 then Char.ofNat (48 + n) else Char.ofNat (87 + n)

/-- `bs.hex()`: two lowercase hex digits per byte, no separators. -/
def bytesHex (bs : List Nat) : String :=
  String.mk (bs.flatMap fun b => [hexDigit (b % 0x100 / 16), hexDigit (b % 16)])

/-- `"{:08x}".format n`: eight lowercase hex digits (for `n < 2^32`). -/
def hex8 (n : Nat) : String :=
  String.mk ((List.range 8).reverse.map fun i => hexDigit (n / 16 ^ i % 16))

/-- The Unicode replacement character U+FFFD. -/
def replChar : Char := Char.ofNat 0xFFFD

/-- `bs.decode('utf-8', errors='replace')`: UTF-8 decoding where every
maximal subpart of an ill-formed sequence becomes one U+FFFD, as CPython
implements it (following the Unicode substitution-of-maximal-subparts
recommendation).  Never raises. -/
def utf8Replace : List Nat → List Char
  | [] => []
  | b :: rest =>
    if b < 0x80 then Char.ofNat b :: utf8Replace rest
    else if 0xC2 ≤ b ∧ b ≤ 0xDF then
      match rest with
      | [] => [replChar]
      | c1 :: r1 =>
        if 0x80 ≤ c1 ∧ c1 ≤ 0xBF then
          Char.ofNat ((b - 0xC0) * 0x40 + (c1 - 0x80)) :: utf8Replace r1
        else replChar :: utf8Replace (c1 :: r1)
    else if 0xE0 ≤ b ∧ b ≤ 0xEF then
      match rest with
      | [] => [replChar]
      | c1 :: r1 =>
        if (if b = 0xE0 then 0xA0 else 0x80) ≤ c1 ∧
            c1 ≤ (if b = 0xED then 0x9F else 0xBF) then
          match r1 with
          | [] => [replChar]
          | c2 :: r2 =>
            if 0x80 ≤ c2 ∧ c2 ≤ 0xBF then
              Char.ofNat ((b - 0xE0) * 0x1000 + (c1 - 0x80) * 0x40 + (c2 - 0x80)) ::
                utf8Replace r2
            else replChar :: utf8Replace (c2 :: r2)
        else replChar :: utf8Replace (c1 :: r1)
    else if 0xF0 ≤ b ∧ b ≤ 0xF4 then
      match rest with
      | [] => [replChar]
      | c1 :: r1 =>
        if (if b = 0xF0 then 0x90 else 0x80) ≤ c1 ∧
            c1 ≤ (if b = 0xF4 then 0x8F else 0xBF) then
          match r1 with
          | [] => [replChar]
          | c2 :: r2 =>
            if 0x80 ≤ c2 ∧ c2 ≤ 0xBF then
              match r2 with
              | [] => [replChar]
              | c3 :: r3 =>
                if 0x80 ≤ c3 ∧ c3 ≤ 0xBF then
                  Char.ofNat ((b - 0xF0) * 0x40000 + (c1 - 0x80) * 0x1000 +
                      (c2 - 0x80) * 0x40 + (c3 - 0x80)) :: utf8Replace r3
                else replChar :: utf8Replace (c3 :: r3)
            else replChar :: utf8Replace (c2 :: r2)
        else replChar :: utf8Replace (c1 :: r1)
    else replChar :: utf8Replace rest

/-- The five successive `self.log.write(...)` calls that
`TrafficLogger.log_packet(direction, data)` issues to the text sink, in
order: separator, `[<timestamp>] <direction> (<N> bytes)`, separator, hex
dump of the first 256 bytes, best-effort UTF-8 text of the same prefix. -/
def textWrites (timestamp direction : String) (data : List Nat) : List String :=
  ["\n" ++ String.mk (List.replicate 60 '=') ++ "\n",
   "[" ++ timestamp ++ "] " ++ direction ++ " (" ++ toString data.length ++ " bytes)\n",
   String.mk (List.replicate 60 '=') ++ "\n",
   "Hex: " ++ bytesHex (data.take 256) ++ "\n",
   "Text: " ++ String.mk (utf8Replace (data.take 256)) ++ "\n"]

/-- The rendering of a decoded flags field used by the repository
(`print(f"Flags: 0x{flags:08x}")` in `tools/protocol_analysis.py`). -/
def flagsFieldLine (h : AnalyzedHeader) : String := "Flags: 0x" ++ hex8 h.flags

/-- `sub` occurs as a contiguous run inside `s`. -/
def hasSubstring (sub s : List Char) : Bool :=
  (List.range (s.length + 1)).any fun i => (s.drop i).take sub.length == sub

/-- `w` is an interleaving of the write sequences `xs` and `ys` (two threads
each issuing their writes in program order, scheduled arbitrarily). -/
inductive IsShuffle : List α → List α → List α → Prop where
  | nil : IsShuffle [] [] []
  | left : IsShuffle xs ys zs → IsShuffle (x :: xs) ys (x :: zs)
  | right : IsShuffle xs ys zs → IsShuffle xs (y :: ys) (y :: zs)

/-- The strictly alternating interleaving of two write sequences (thread 1
and thread 2 scheduled in lockstep). -/
def interleave2 : List α → List α → List α
  | x :: xs, y :: ys => x :: y :: interleave2 xs ys
  | xs, [] => xs
  | [], ys => ys

/-! ### Forwarding loop and session handler (`tools/patch_proxy.py`) -/

/-- One observable side effect of a forwarding loop:
`logger.log_packet(direction, data)` or `dst.send(data)`. -/
inductive Ev where
  | log (direction : String) (data : List Nat)
  | send (data : List Nat)
deriving DecidableEq

/-- `forward_data(src, dst, direction, logger)`: the successive results of
`src.recv(BUFFER_SIZE)` are the list `chunks` (an empty result is what `recv`
returns at end of stream, and an exhausted list means no further data
arrives).  The loop breaks on an empty chunk; otherwise it logs the chunk and
then sends it, in that order, before reading the next chunk.  The value is
the ordered trace of log/send actions. -/
def forward_data (direction : String) : List (List Nat) → List Ev
  | [] => []
  | c :: rest =>
    if c = [] then []
    else .log direction c :: .send c :: forward_data direction rest

/-- The log actions of a trace, in order. -/
def evLogs : List Ev → List (String × List Nat)
  | [] => []
  | .log d p :: t => (d, p) :: evLogs t
  | .send _ :: t => evLogs t

/-- The send actions of a trace, in order. -/
def evSends : List Ev → List (List Nat)
  | [] => []
  | .send p :: t => p :: evSends t
  | .log _ _ :: t => evSends t

/-- Outcome of `handle_client` for one accepted connection. -/
structure SessionResult where
  upstreamConnected : Bool
  inboundClosed : Bool
  upstreamClosed : Bool
  clientToServer : List Ev
  serverToClient : List Ev
deriving DecidableEq

/-- `handle_client(client_sock, client_addr, logger)`: dials the upstream
(`dialOk` says whether `connect` succeeds).  On failure it closes the inbound
socket and returns without starting the forwarding threads.  On success it
runs the two `forward_data` loops (given each leg's recv streams) and both
legs end closed via the loops' `finally` blocks. -/
def handle_client (dialOk : Bool) (clientChunks serverChunks : List (List Nat)) :
    SessionResult :=
  if dialOk then
    { upstreamConnected := true, inboundClosed := true, upstreamClosed := true,
      clientToServer := forward_data CLIENT_TO_SERVER clientChunks,
      serverToClient := forward_data SERVER_TO_CLIENT serverChunks }
  else
    { upstreamConnected := false, inboundClosed := true, upstreamClosed := false,
      clientToServer := [], serverToClient := [] }

/-! ### Theorems -/

theorem unpackLEu32_isSome {s : List Nat} (h : s.length = 4) :
    ∃ v, unpackLEu32 s = some v := by
  match s, h with
  | [a, b, c, d], _ => exact ⟨_, rfl⟩

/-- C2: the envelope decoder is total: for every byte sequence it returns a
result (never an uncaught exception), and for every input shorter than 13
bytes it returns the "too short" result (`none`, no parsed header fields). -/
theorem analyze_header_total (data : List Nat) :
    (∃ r, analyze_header data = PyResult.ok r) ∧
    (data.length < 13 → analyze_header data = PyResult.ok none) := by
  by_cases h : data.length < 13
  · exact ⟨⟨none, by simp [analyze_header, h]⟩, fun _ => by simp [analyze_header, h]⟩
  · refine ⟨?_, fun hlt => absurd hlt h⟩
    cases data with
    | nil => simp at h
    | cons t rest =>
      obtain ⟨v1, hv1⟩ := unpackLEu32_isSome
        (s := rest.take 4)
        (by simp only [List.length_take, List.length_cons] at h ⊢; omega)
      obtain ⟨v2, hv2⟩ := unpackLEu32_isSome
        (s := (rest.drop 8).take 4)
        (by simp only [List.length_take, List.length_drop, List.length_cons] at h ⊢; omega)
      refine ⟨some ⟨t, v1, asciiDecodeIgnore ((rest.drop 4).take 4), v2⟩, ?_⟩
      simp only [List.length_cons] at h
      simp [analyze_header, h, hv1, hv2]

/-- C2 witness: the total decoder at the concrete 1-byte input `[0x6d]`. -/
theorem analyze_header_total_witness :
    analyze_header [0x6d] = PyResult.ok none :=
  (analyze_header_total [0x6d]).2 (by decide)

/-- C3 counterexample: decoding `6D 01 00 80 04 33 64 65 73 80 00 00 00` does
not yield the field values the claim states: the flags field is the
little-endian value `0x04800001` of bytes `01 00 80 04`, not `0x80000001`. -/
theorem analyze_header_req1_not_as_claimed :
    analyze_header REQUEST_HEADER ≠
      PyResult.ok (some ⟨0x6d, 0x80000001, "3des", 0x80⟩) := by decide

/-- C3 amended: decoding the 13-byte input `6D 01 00 80 04 33 64 65 73 80 00
00 00` yields message type `0x6D`, flags `0x04800001`, cipher tag `"3des"`,
padding `0x00000080`, and an empty payload (no bytes beyond the header). -/
theorem analyze_header_req1 :
    analyze_header REQUEST_HEADER =
      PyResult.ok (some ⟨0x6d, 0x04800001, "3des", 0x80⟩) ∧
    REQUEST_HEADER.drop 13 = [] := by decide

/-- C4 counterexample: the flags of the two example headers are not the same:
the first decodes to flags `0x04800001`, the second to `0x04800000`. -/
theorem analyze_header_req2_flags_differ :
    analyze_header REQUEST_HEADER =
      PyResult.ok (some ⟨0x6d, 0x04800001, "3des", 0x80⟩) ∧
    analyze_header REQUEST_HEADER_2 =
      PyResult.ok (some ⟨0xd5, 0x04800000, "3des", 0x80⟩) ∧
    (0x04800000 : Nat) ≠ 0x04800001 := by decide

/-- C4 amended: decoding `D5 00 00 80 04 33 64 65 73 80 00 00 00` yields
message type `0xD5` and the same cipher tag and padding as the first example
header, but its flags are `0x04800000`, one less than the first header's
`0x04800001` (the second byte is `0x00` instead of `0x01`). -/
theorem analyze_header_req2 :
    ∃ h1 h2,
      analyze_header REQUEST_HEADER = PyResult.ok (some h1) ∧
      analyze_header REQUEST_HEADER_2 = PyResult.ok (some h2) ∧
      h2.msg_type = 0xd5 ∧ h2.cipher = h1.cipher ∧ h2.padding = h1.padding ∧
      h2.flags = 0x04800000 ∧ h1.flags = 0x04800001 :=
  ⟨⟨0x6d, 0x04800001, "3des", 0x80⟩, ⟨0xd5, 0x04800000, "3des", 0x80⟩,
    by decide, by decide, rfl, rfl, rfl, rfl, rfl⟩

/-- C1: in each direction, the forwarding loop's trace is exactly one log
action followed by one send action, with the unmodified chunk, for each chunk
read before end-of-stream, in reading order; hence the recorded frames and
the bytes written to the destination both equal the list of chunks read, with
nothing synthesized, dropped, duplicated, or reordered. -/
theorem forward_data_lossless (direction : String) (chunks : List (List Nat)) :
    forward_data direction chunks =
      ((chunks.takeWhile fun c => !c.isEmpty).map
        fun c => [Ev.log direction c, Ev.send c]).flatten ∧
    evLogs (forward_data direction chunks) =
      ((chunks.takeWhile fun c => !c.isEmpty).map fun c => (direction, c)) ∧
    evSends (forward_data direction chunks) =
      chunks.takeWhile fun c => !c.isEmpty := by
  induction chunks with
  | nil => exact ⟨rfl, rfl, rfl⟩
  | cons c rest ih =>
    by_cases hc : c = []
    · subst hc
      simp [forward_data, evLogs, evSends]
    · have hne : (!c.isEmpty) = true := by simp [List.isEmpty_iff, hc]
      refine ⟨?_, ?_, ?_⟩
      · simp only [forward_data, if_neg hc, List.takeWhile_cons, hne, if_true,
          List.map_cons, List.flatten_cons, ih.1]
        rfl
      · simp only [forward_data, if_neg hc, List.takeWhile_cons, hne, if_true,
          List.map_cons, evLogs, ih.2.1]
      · simp only [forward_data, if_neg hc, List.takeWhile_cons, hne, if_true,
          evLogs, evSends, ih.2.2]

/-- C9: when the upstream dial fails, the session closes the inbound socket,
records no frames, and never starts relaying (both forwarding traces are
empty).  Each session is a function of its own connection's inputs only, so
other sessions are unaffected. -/
theorem handle_client_dial_failure (clientChunks serverChunks : List (List Nat)) :
    (handle_client false clientChunks serverChunks).inboundClosed = true ∧
    (handle_client false clientChunks serverChunks).upstreamConnected = false ∧
    (handle_client false clientChunks serverChunks).clientToServer = [] ∧
    (handle_client false clientChunks serverChunks).serverToClient = [] ∧
    evLogs (handle_client false clientChunks serverChunks).clientToServer = [] ∧
    evLogs (handle_client false clientChunks serverChunks).serverToClient = [] :=
  ⟨rfl, rfl, rfl, rfl, rfl, rfl⟩

/-- C10: no zero-length frame is ever logged or forwarded: the loop treats an
empty read as end-of-stream and exits before logging or sending, so every
frame in a forwarding trace has a strictly positive byte count. -/
theorem no_empty_frame (direction d : String) (chunks : List (List Nat)) (p : List Nat) :
    (Ev.log d p ∈ forward_data direction chunks → 0 < p.length) ∧
    (Ev.send p ∈ forward_data direction chunks → 0 < p.length) := by
  induction chunks with
  | nil => simp [forward_data]
  | cons c rest ih =>
    by_cases hc : c = []
    · simp [forward_data, hc]
    · constructor
      · intro hm
        simp only [forward_data, if_neg hc, List.mem_cons, Ev.log.injEq,
          reduceCtorEq, false_or] at hm
        rcases hm with ⟨_, hp⟩ | hm
        · subst hp; exact List.length_pos.mpr hc
        · exact ih.1 hm
      · intro hm
        simp only [forward_data, if_neg hc, List.mem_cons, Ev.send.injEq,
          reduceCtorEq, false_or] at hm
        rcases hm with hp | hm
        · subst hp; exact List.length_pos.mpr hc
        · exact ih.2 hm

/-- C10 witness: the frame `[0x37]` logged and sent by a loop that read it. -/
theorem no_empty_frame_witness :
    (Ev.log CLIENT_TO_SERVER [0x37] ∈ forward_data CLIENT_TO_SERVER [[0x37]] ∧
      0 < ([0x37] : List Nat).length) ∧
    Ev.send [0x37] ∈ forward_data CLIENT_TO_SERVER [[0x37]] :=
  ⟨⟨by decide,
    (no_empty_frame CLIENT_TO_SERVER CLIENT_TO_SERVER [[0x37]] [0x37]).1 (by decide)⟩,
   by decide⟩

theorem unpackLEu32_toBytes4LE {n : Nat} (h : n < 2 ^ 32) :
    unpackLEu32 (toBytes4LE n) = some n := by
  simp only [toBytes4LE, unpackLEu32, Option.some.injEq]
  omega

/-- C5: for every recorded frame, the bytes appended to the binary sink are
exactly a 4-byte marker, the direction tag as fixed-width (14-byte) ASCII,
a second 4-byte marker, the 4-byte little-endian length of the raw frame
bytes, and the raw frame bytes, in that order. -/
theorem binRecord_format (direction : String) (data : List Nat)
    (hdir : direction = CLIENT_TO_SERVER ∨ direction = SERVER_TO_CLIENT)
    (hlen : data.length < 2 ^ 32) :
    binRecord direction data =
      MARKER ++ strEncode direction ++ MARKER ++ toBytes4LE data.length ++ data ∧
    MARKER.length = 4 ∧
    (strEncode direction).length = 14 ∧
    (∀ b ∈ strEncode direction, b < 0x80) ∧
    (toBytes4LE data.length).length = 4 ∧
    unpackLEu32 (toBytes4LE data.length) = some data.length := by
  refine ⟨rfl, rfl, ?_, ?_, rfl, unpackLEu32_toBytes4LE hlen⟩
  · rcases hdir with h | h <;> rw [h] <;> decide
  · rcases hdir with h | h <;> rw [h] <;> decide

/-- C5 witness: the length field of the record for a concrete one-byte frame
decodes back to its length. -/
theorem binRecord_format_witness :
    unpackLEu32 (toBytes4LE ([0xab] : List Nat).length) =
      some ([0xab] : List Nat).length :=
  (binRecord_format CLIENT_TO_SERVER [0xab] (Or.inl rfl) (by decide)).2.2.2.2.2

theorem readRecords_cons (fuel : Nat) (direction : String) (data rest : List Nat)
    (hdir : (strEncode direction).length = 14)
    (hlen : data.length < 2 ^ 32) :
    readRecords (fuel + 1) (binRecord direction data ++ rest) =
      (readRecords fuel rest).map fun rs => (strEncode direction, data) :: rs := by
  have hassoc : binRecord direction data ++ rest =
      MARKER ++ (strEncode direction ++ (MARKER ++ (toBytes4LE data.length ++
        (data ++ rest)))) := by
    simp [binRecord, List.append_assoc]
  have hlen26 : (binRecord direction data ++ rest).length =
      26 + data.length + rest.length := by
    simp [binRecord, MARKER, toBytes4LE, hdir]
    omega
  have hne : binRecord direction data ++ rest ≠ [] := by
    intro h
    have := congrArg List.length h
    simp [hlen26] at this
  have hdrop4 : (binRecord direction data ++ rest).drop 4 =
      strEncode direction ++ (MARKER ++ (toBytes4LE data.length ++ (data ++ rest))) := by
    rw [hassoc]
    exact List.drop_left' (by decide)
  have htag : ((binRecord direction data ++ rest).drop 4).take 14 =
      strEncode direction := by
    rw [hdrop4]
    exact List.take_left' hdir
  have hdrop22 : (binRecord direction data ++ rest).drop 22 =
      toBytes4LE data.length ++ (data ++ rest) := by
    have : binRecord direction data ++ rest =
        (MARKER ++ strEncode direction ++ MARKER) ++
          (toBytes4LE data.length ++ (data ++ rest)) := by
      simp [binRecord, List.append_assoc]
    rw [this]
    exact List.drop_left' (by simp [MARKER, hdir])
  have hlenB : ((binRecord direction data ++ rest).drop 22).take 4 =
      toBytes4LE data.length := by
    rw [hdrop22]
    exact List.take_left' rfl
  have hdrop26 : (binRecord direction data ++ rest).drop 26 = data ++ rest := by
    have : binRecord direction data ++ rest =
        (MARKER ++ strEncode direction ++ MARKER ++ toBytes4LE data.length) ++
          (data ++ rest) := by
      simp [binRecord, List.append_assoc]
    rw [this]
    exact List.drop_left' (by simp [MARKER, toBytes4LE, hdir])
  have hdata : ((binRecord direction data ++ rest).drop 26).take data.length =
      data := by
    rw [hdrop26]
    exact List.take_left' rfl
  have hdropRec : (binRecord direction data ++ rest).drop (26 + data.length) = rest := by
    have : binRecord direction data ++ rest =
        (MARKER ++ strEncode direction ++ MARKER ++ toBytes4LE data.length ++ data) ++
          rest := by
      simp [binRecord, List.append_assoc]
    rw [this]
    refine List.drop_left' ?_
    simp [MARKER, toBytes4LE, hdir]
    omega
  simp only [readRecords, if_neg hne, hlen26, hlenB, hdrop26, htag, hdata, hdropRec,
    unpackLEu32_toBytes4LE hlen]
  have h26 : ¬ 26 + data.length + rest.length < 26 := by omega
  have hnlt : ¬ (data ++ rest).length < data.length := by simp
  simp [h26, hnlt]

/-- C6: replaying the binary sink — skip the fixed 22-byte record header,
read the 4-byte little-endian length, read that many bytes, repeat —
reconstructs byte-for-byte the recorded frames in recording order, together
with their direction tags and lengths. -/
theorem binSink_roundtrip (frames : List (String × List Nat)) (fuel : Nat)
    (hfuel : frames.length ≤ fuel)
    (hframes : ∀ f ∈ frames,
      (f.1 = CLIENT_TO_SERVER ∨ f.1 = SERVER_TO_CLIENT) ∧ f.2.length < 2 ^ 32) :
    readRecords fuel (binSink frames) =
      some (frames.map fun f => (strEncode f.1, f.2)) := by
  induction frames generalizing fuel with
  | nil => cases fuel <;> simp [binSink, readRecords]
  | cons f fs ih =>
    cases fuel with
    | zero => simp at hfuel
    | succ fl =>
      have hf := hframes f (by simp)
      have hdir : (strEncode f.1).length = 14 := by
        rcases hf.1 with h | h <;> rw [h] <;> decide
      have hsink : binSink (f :: fs) = binRecord f.1 f.2 ++ binSink fs := by
        simp [binSink]
      rw [hsink, readRecords_cons fl f.1 f.2 (binSink fs) hdir hf.2,
        ih fl (by simpa using hfuel) (fun g hg => hframes g (List.mem_cons_of_mem f hg))]
      rfl

/-- C6 witness: the two-frame sink for a client chunk `[1, 2]` and a server
chunk `[3]` replays to exactly those frames with their direction tags. -/
theorem binSink_roundtrip_witness :
    readRecords 2 (binSink [(CLIENT_TO_SERVER, [1, 2]), (SERVER_TO_CLIENT, [3])]) =
      some [(strEncode CLIENT_TO_SERVER, [1, 2]), (strEncode SERVER_TO_CLIENT, [3])] :=
  binSink_roundtrip [(CLIENT_TO_SERVER, [1, 2]), (SERVER_TO_CLIENT, [3])] 2
    (by decide) (by decide)

theorem bytesHex_length (bs : List Nat) : (bytesHex bs).length = 2 * bs.length := by
  show (bs.flatMap fun b => [hexDigit (b % 0x100 / 16), hexDigit (b % 16)]).length =
    2 * bs.length
  induction bs with
  | nil => rfl
  | cons b t ih =>
    simp only [List.flatMap_cons, List.length_append, List.length_cons,
      List.length_nil, ih]
    omega

set_option maxRecDepth 8192 in
/-- C7 counterexample: the frame `REQUEST_HEADER` parses as an envelope
(13 bytes, client→server), yet its text-sink record nowhere contains the
decoded header fields: the repository's own rendering of the decoded flags
field does not occur in the record. -/
theorem text_sink_omits_envelope_fields :
    analyze_header REQUEST_HEADER =
      PyResult.ok (some ⟨0x6d, 0x04800001, "3des", 0x80⟩) ∧
    hasSubstring (flagsFieldLine ⟨0x6d, 0x04800001, "3des", 0x80⟩).data
      (String.join (textWrites "2007-01-01T00:00:00" CLIENT_TO_SERVER
        REQUEST_HEADER)).data = false := by decide

/-- C7 amended: each text-sink record consists of a separator line, a
`[<timestamp>] <DIRECTION> (<N> bytes)` line, a second separator, a hex dump
of at most the first 256 bytes, and a best-effort UTF-8 rendering (invalid
sequences replaced) of that same prefix; it depends on the frame bytes only
through the length and the 256-byte prefix, and decoded envelope fields are
never written even when the frame parses as an envelope. -/
theorem textWrites_spec (ts direction : String) (data other : List Nat)
    (hpre : data.take 256 = other.take 256) (hlen : data.length = other.length) :
    textWrites ts direction data =
      ["\n" ++ String.mk (List.replicate 60 '=') ++ "\n",
       "[" ++ ts ++ "] " ++ direction ++ " (" ++ toString data.length ++ " bytes)\n",
       String.mk (List.replicate 60 '=') ++ "\n",
       "Hex: " ++ bytesHex (data.take 256) ++ "\n",
       "Text: " ++ String.mk (utf8Replace (data.take 256)) ++ "\n"] ∧
    (bytesHex (data.take 256)).length = 2 * min 256 data.length ∧
    textWrites ts direction data = textWrites ts direction other := by
  refine ⟨rfl, ?_, ?_⟩
  · rw [bytesHex_length]
    simp [List.length_take]
  · simp [textWrites, hpre, hlen]

set_option maxRecDepth 8192 in
/-- C7 witness: two frames agreeing on length and 256-byte prefix but
differing at byte 257 produce identical text records. -/
theorem textWrites_spec_witness :
    textWrites "T" CLIENT_TO_SERVER (List.replicate 257 0) =
      textWrites "T" CLIENT_TO_SERVER (List.replicate 256 0 ++ [1]) :=
  (textWrites_spec "T" CLIENT_TO_SERVER (List.replicate 257 0)
    (List.replicate 256 0 ++ [1]) (by decide) (by decide)).2.2

theorem isShuffle_nil_right : ∀ xs : List α, IsShuffle xs [] xs
  | [] => .nil
  | _ :: xs => .left (isShuffle_nil_right xs)

theorem isShuffle_nil_left : ∀ ys : List α, IsShuffle [] ys ys
  | [] => .nil
  | _ :: ys => .right (isShuffle_nil_left ys)

theorem isShuffle_interleave2 : ∀ (xs ys : List α), IsShuffle xs ys (interleave2 xs ys)
  | [], [] => .nil
  | [], y :: ys => isShuffle_nil_left (y :: ys)
  | _ :: xs, [] => .left (isShuffle_nil_right xs)
  | _ :: xs, _ :: ys => .left (.right (isShuffle_interleave2 xs ys))

/-- C8 counterexample: `TrafficLogger` has no lock and `log_packet` issues
its five text-sink writes separately, so a legal interleaving of two
concurrent records exists whose text-sink contents are neither record
followed by the other: the records' bytes interleave mid-record. -/
theorem log_records_can_interleave :
    IsShuffle (textWrites "T1" CLIENT_TO_SERVER [0x41])
      (textWrites "T2" SERVER_TO_CLIENT [0x42])
      (interleave2 (textWrites "T1" CLIENT_TO_SERVER [0x41])
        (textWrites "T2" SERVER_TO_CLIENT [0x42])) ∧
    String.join (interleave2 (textWrites "T1" CLIENT_TO_SERVER [0x41])
        (textWrites "T2" SERVER_TO_CLIENT [0x42])) ≠
      String.join (textWrites "T1" CLIENT_TO_SERVER [0x41]) ++
        String.join (textWrites "T2" SERVER_TO_CLIENT [0x42]) ∧
    String.join (interleave2 (textWrites "T1" CLIENT_TO_SERVER [0x41])
        (textWrites "T2" SERVER_TO_CLIENT [0x42])) ≠
      String.join (textWrites "T2" SERVER_TO_CLIENT [0x42]) ++
        String.join (textWrites "T1" CLIENT_TO_SERVER [0x41]) :=
  ⟨isShuffle_interleave2 _ _, by decide, by decide⟩

/-- C8 amended: the logger performs no internal serialization.  A text-sink
record is emitted as five separate write calls, which concurrent sessions may
interleave; a binary-sink record is emitted as a single write call, so at
write-call granularity any interleaving of two binary records leaves each
record contiguous and complete. -/
theorem logger_write_granularity (ts direction : String) (data d1 d2 : List Nat)
    (s1 s2 : String) (w : List (List Nat))
    (hw : IsShuffle (binWrites s1 d1) (binWrites s2 d2) w) :
    (textWrites ts direction data).length = 5 ∧
    binWrites direction data = [binRecord direction data] ∧
    (w.flatten = binRecord s1 d1 ++ binRecord s2 d2 ∨
      w.flatten = binRecord s2 d2 ++ binRecord s1 d1) := by
  refine ⟨rfl, rfl, ?_⟩
  simp only [binWrites] at hw
  cases hw with
  | left h1 =>
    cases h1 with
    | right h2 => cases h2 with | nil => left; simp
  | right h1 =>
    cases h1 with
    | left h2 => cases h2 with | nil => right; simp

/-- C8 witness: the two binary records of two concurrently logged frames, in
a concrete scheduling, appear contiguously one after the other. -/
theorem logger_write_granularity_witness :
    ([binRecord CLIENT_TO_SERVER [1], binRecord SERVER_TO_CLIENT [2]] :
        List (List Nat)).flatten =
      binRecord CLIENT_TO_SERVER [1] ++ binRecord SERVER_TO_CLIENT [2] ∨
    ([binRecord CLIENT_TO_SERVER [1], binRecord SERVER_TO_CLIENT [2]] :
        List (List Nat)).flatten =
      binRecord SERVER_TO_CLIENT [2] ++ binRecord CLIENT_TO_SERVER [1] :=
  (logger_write_granularity "T" CLIENT_TO_SERVER [] [1] [2]
    CLIENT_TO_SERVER SERVER_TO_CLIENT
    [binRecord CLIENT_TO_SERVER [1], binRecord SERVER_TO_CLIENT [2]]
    (IsShuffle.left (IsShuffle.right IsShuffle.nil))).2.2

end LotroProxy
